import Mathlib

/-!
Shallow embedding of `src/packages/popover2/src/breadcrumbs2.tsx`
(the `Breadcrumbs2` component of the blueprint repository).

Descriptors are modelled as records; JS reference equality on descriptor
objects (`===`) is modelled as structural equality of the record values, so
the same list entry written twice stands for two references to one object.
JSX attribute merging is modelled explicitly: attributes written after a
spread override the spread, attributes written before it are overridden by
any field the spread supplies.
-/

namespace Breadcrumbs2

/-- The `Boundary` enum of the core package: which end of the sequence
collapses into the overflow menu first. -/
inductive Boundary where
  | START
  | END
deriving DecidableEq

/-- One breadcrumb descriptor (`BreadcrumbProps`): a label, an optional link
target, an optional click handler (identified by a number standing for the
function object), an optional current-override, the blueprint-specific
display fields, and arbitrary pass-through display attributes.  The optional
`disabled` field is one such ordinary display attribute. -/
structure BreadcrumbProps where
  text : String
  href : Option String := none
  onClick : Option Nat := none
  current : Option Bool := none
  icon : Option String := none
  intent : Option String := none
  disabled : Option Bool := none
  className : Option String := none
  extraAttrs : List (String × String) := []
deriving DecidableEq

/-- The part of a descriptor that survives `removeNonHTMLProps`. -/
structure HtmlProps where
  href : Option String
  onClick : Option Nat
  disabled : Option Bool
  className : Option String
  extraAttrs : List (String × String)
deriving DecidableEq

/-- Modelled from the spec: `removeNonHTMLProps` lives in the core package of
this repository, not under src.  Per the spec (data model and the overflow
entry contract), the blueprint-specific display fields of a descriptor
(label, current-override, icon, intent) are stripped before spreading onto a
plain element, while the link target, the click handler and all arbitrary
pass-through display attributes (here `disabled`, `className` and
`extraAttrs`) survive. -/
def removeNonHTMLProps (p : BreadcrumbProps) : HtmlProps :=
  { href := p.href
  , onClick := p.onClick
  , disabled := p.disabled
  , className := p.className
  , extraAttrs := p.extraAttrs }

/-- The rendered overflow-menu entry (`MenuItem2` element).  Note the type has
no current flag at all: the overflow path never marks an entry current. -/
structure MenuItem2Elem where
  disabled : Bool
  text : String
  href : Option String
  onClick : Option Nat
  className : Option String
  extraAttrs : List (String × String)
  key : Nat
deriving DecidableEq

/-- Embedding of `renderOverflowBreadcrumb`.  The JSX is
`MenuItem2 disabled={not isClickable} {...htmlProps} text={props.text}`:
the spread comes after the computed `disabled`, so a `disabled` attribute on
the descriptor overrides the computed value, and `text` comes after the
spread, so the label is always the explicit one. -/
def renderOverflowBreadcrumb (props : BreadcrumbProps) (index : Nat) : MenuItem2Elem :=
  let isClickable := props.href.isSome || props.onClick.isSome
  let htmlProps := removeNonHTMLProps props
  { disabled := htmlProps.disabled.getD (!isClickable)
  , text := props.text
  , href := htmlProps.href
  , onClick := htmlProps.onClick
  , className := htmlProps.className
  , extraAttrs := htmlProps.extraAttrs
  , key := index }

/-- The `popoverProps` pass-through record.  Its declared type omits
`content`, `defaultIsOpen`, `disabled`, `fill`, `renderTarget` and
`targetTagName`, so those fields cannot occur in it; the remaining fields are
modelled by a representative sample. -/
structure PopoverPassProps where
  placement : Option String := none
  isOpen : Option Bool := none
  usePortal : Option Bool := none
deriving DecidableEq

/-- The rendered overflow popover (`Popover2` element wrapping the menu). -/
structure Popover2Elem where
  placement : String
  disabled : Bool
  content : List MenuItem2Elem
  isOpen : Option Bool
  usePortal : Option Bool
deriving DecidableEq

/-- JS `Array.prototype.map` hands the callback the element and its index. -/
def mapWithIndex (f : Nat → α → β) : Nat → List α → List β
  | _, [] => []
  | i, a :: as => f i a :: mapWithIndex f (i + 1) as

/-- Embedding of `renderOverflow`: reverse the overflowed subsequence when
collapsing from the start, keep it as given when collapsing from the end;
the popover is disabled exactly when there is nothing to show, and the
`popoverProps` spread comes after `placement` (which it may override) but
cannot touch `disabled` or `content`, which its type omits. -/
def renderOverflow (collapseFrom : Boundary) (popoverProps : PopoverPassProps)
    (items : List BreadcrumbProps) : Popover2Elem :=
  let orderedItems := if collapseFrom = Boundary.START then items.reverse else items
  { placement := popoverProps.placement.getD
      (if collapseFrom = Boundary.END then "bottom-end" else "bottom-start")
  , disabled := decide (orderedItems.length = 0)
  , content := mapWithIndex (fun i p => renderOverflowBreadcrumb p i) 0 orderedItems
  , isOpen := popoverProps.isOpen
  , usePortal := popoverProps.usePortal }

/-- Modelled from the spec: the overflow-measurement collaborator
(`OverflowList` in the core package of this repository) is not under src.
Per the spec it partitions the items into a visible subset and an overflowed
subset, collapsing from the configured end first; `minVisibleItems` is a
floor on the number of visible items regardless of measured space, and
`spaceFor` stands for the number of items the measured width admits.  The
overflowed subset is handed to the overflow renderer in source order. -/
def overflowPartition (collapseFrom : Boundary) (minVisibleItems spaceFor : Nat)
    (items : List BreadcrumbProps) : List BreadcrumbProps × List BreadcrumbProps :=
  let numVisible := min items.length (max minVisibleItems spaceFor)
  match collapseFrom with
  | Boundary.START => (items.drop (items.length - numVisible), items.take (items.length - numVisible))
  | Boundary.END => (items.take numVisible, items.drop numVisible)

/-- The current check of `renderBreadcrumbWrapper`:
`this.props.items[this.props.items.length - 1] === props`, reference
equality against the last element of the full sequence. -/
def isCurrentFlag (items : List BreadcrumbProps) (p : BreadcrumbProps) : Bool :=
  decide (items.getLast? = some p)

/-- Which of the two optional renderer callbacks the caller supplied. -/
structure RendererConfig where
  breadcrumbRenderer : Bool
  currentBreadcrumbRenderer : Bool
deriving DecidableEq

/-- The element produced for one visible breadcrumb, tagged by which renderer
produced it; for the default element the resolved current prop is recorded.
The tag doubles as the record of which callback was invoked with which
descriptor. -/
inductive RenderedBreadcrumb where
  | fromCurrentRenderer (props : BreadcrumbProps)
  | fromGenericRenderer (props : BreadcrumbProps)
  | defaultBreadcrumb (current : Bool) (props : BreadcrumbProps)
deriving DecidableEq

/-- Embedding of `renderBreadcrumb`: current-specific renderer first, then the
generic renderer, else the default element.  The default JSX is
`Breadcrumb current={isCurrent} {...props}`: the spread comes after the
computed flag, so a `current` field on the descriptor overrides it. -/
def renderBreadcrumb (cfg : RendererConfig) (props : BreadcrumbProps) (isCurrent : Bool) :
    RenderedBreadcrumb :=
  if isCurrent && cfg.currentBreadcrumbRenderer then
    RenderedBreadcrumb.fromCurrentRenderer props
  else if cfg.breadcrumbRenderer then
    RenderedBreadcrumb.fromGenericRenderer props
  else
    RenderedBreadcrumb.defaultBreadcrumb (props.current.getD isCurrent) props

/-- The current prop of the rendered element, when it is the default one. -/
def RenderedBreadcrumb.currentProp : RenderedBreadcrumb → Option Bool
  | RenderedBreadcrumb.defaultBreadcrumb c _ => some c
  | _ => none

/-- The list-item wrapper around one visible breadcrumb. -/
structure LiElem where
  key : Nat
  child : RenderedBreadcrumb
deriving DecidableEq

/-- Embedding of `renderBreadcrumbWrapper`: compute the current flag against
the full items sequence and wrap the rendered breadcrumb in a list item. -/
def renderBreadcrumbWrapper (cfg : RendererConfig) (items : List BreadcrumbProps)
    (props : BreadcrumbProps) (index : Nat) : LiElem :=
  { key := index, child := renderBreadcrumb cfg props (isCurrentFlag items props) }

/-- The visible subset rendered through the wrapper, with its indices. -/
def renderVisibleLis (cfg : RendererConfig) (items visible : List BreadcrumbProps) :
    List LiElem :=
  mapWithIndex (fun i p => renderBreadcrumbWrapper cfg items p i) 0 visible

/-- One invocation of a caller-supplied renderer callback. -/
inductive RendererCall where
  | currentR (props : BreadcrumbProps)
  | genericR (props : BreadcrumbProps)
deriving DecidableEq

/-- The callback invocations a rendered element records. -/
def RenderedBreadcrumb.calls : RenderedBreadcrumb → List RendererCall
  | RenderedBreadcrumb.fromCurrentRenderer p => [RendererCall.currentR p]
  | RenderedBreadcrumb.fromGenericRenderer p => [RendererCall.genericR p]
  | RenderedBreadcrumb.defaultBreadcrumb _ _ => []

/-- All callback invocations of a render pass, in order. -/
def callsOf : List RenderedBreadcrumb → List RendererCall
  | [] => []
  | r :: rs => r.calls ++ callsOf rs

/-- One full render pass of the component: partition the items, render the
visible subset through the wrapper and the overflowed subset through the
overflow popover, and record the renderer invocations (the overflow path has
no access to the renderer callbacks at all, mirroring the source, where
`renderOverflowBreadcrumb` never reads them). -/
def breadcrumbs2Render (cfg : RendererConfig) (collapseFrom : Boundary)
    (minVisibleItems spaceFor : Nat) (popoverProps : PopoverPassProps)
    (items : List BreadcrumbProps) :
    List LiElem × Popover2Elem × List RendererCall :=
  let part := overflowPartition collapseFrom minVisibleItems spaceFor items
  let lis := renderVisibleLis cfg items part.1
  let ov := renderOverflow collapseFrom popoverProps part.2
  (lis, ov, callsOf (lis.map LiElem.child))

/-- Whether the element came from the current-specific renderer. -/
def RenderedBreadcrumb.isFromCurrent : RenderedBreadcrumb → Bool
  | RenderedBreadcrumb.fromCurrentRenderer _ => true
  | _ => false

/-- Whether the element came from the generic renderer. -/
def RenderedBreadcrumb.isFromGeneric : RenderedBreadcrumb → Bool
  | RenderedBreadcrumb.fromGenericRenderer _ => true
  | _ => false

/-- Tag standing for the overflow renderer callback handed to the collaborator. -/
inductive OverflowRendererTag where
  | controllerOverflow
  | custom (id : Nat)
deriving DecidableEq

/-- Tag standing for the visible-item renderer callback handed to the collaborator. -/
inductive VisibleRendererTag where
  | controllerVisible
  | custom (id : Nat)
deriving DecidableEq

/-- The attribute record of the overflow-list collaborator, with every field
optional, as a JSX attribute dictionary under construction. -/
structure OverflowListAttrs where
  collapseFrom : Option Boundary := none
  minVisibleItems : Option Nat := none
  tagName : Option String := none
  className : Option String := none
  alwaysRenderOverflow : Option Bool := none
  style : Option String := none
  items : Option (List BreadcrumbProps) := none
  overflowRenderer : Option OverflowRendererTag := none
  visibleItemRenderer : Option VisibleRendererTag := none
deriving DecidableEq

/-- Attribute resolution of a JSX spread: the later value wins when present. -/
def pick : Option α → Option α → Option α
  | some a, _ => some a
  | none, b => b

/-- JSX spread semantics on the attribute record: every field of the record
written later (`b`) wins where present. -/
def mergeAttrs (a b : OverflowListAttrs) : OverflowListAttrs :=
  { collapseFrom := pick b.collapseFrom a.collapseFrom
  , minVisibleItems := pick b.minVisibleItems a.minVisibleItems
  , tagName := pick b.tagName a.tagName
  , className := pick b.className a.className
  , alwaysRenderOverflow := pick b.alwaysRenderOverflow a.alwaysRenderOverflow
  , style := pick b.style a.style
  , items := pick b.items a.items
  , overflowRenderer := pick b.overflowRenderer a.overflowRenderer
  , visibleItemRenderer := pick b.visibleItemRenderer a.visibleItemRenderer }

/-- The classnames helper: join the class strings that are present with spaces. -/
def classNames (xs : List (Option String)) : String :=
  String.intercalate " " (xs.filterMap id)

/-- Modelled from the spec: the breadcrumbs base css class constant of the
core package (its exact value is immaterial to the claims). -/
def breadcrumbsClass : String := "bp4-breadcrumbs"

/-- Embedding of `render`: the attributes handed to the overflow-list
collaborator, built in JSX order.  `collapseFrom`, `minVisibleItems` and
`tagName` are written first, then the `overflowListProps` spread, then the
merged `className`, the `items` and the two renderer callbacks, which
therefore cannot be replaced by the spread. -/
def overflowListAttrsOf (cf : Boundary) (minVis : Option Nat) (cls : Option String)
    (items : List BreadcrumbProps) (olp : OverflowListAttrs) : OverflowListAttrs :=
  let pre : OverflowListAttrs :=
    { collapseFrom := some cf, minVisibleItems := minVis, tagName := some "ul" }
  let spread := mergeAttrs pre olp
  { spread with
    className := some (classNames [some breadcrumbsClass, olp.className, cls])
  , items := some items
  , overflowRenderer := some OverflowRendererTag.controllerOverflow
  , visibleItemRenderer := some VisibleRendererTag.controllerVisible }

/-! Helper lemmas. -/

theorem overflowPartition_all_visible (cf : Boundary) (minVis spaceFor : Nat)
    (items : List BreadcrumbProps) (h : items.length ≤ minVis) :
    overflowPartition cf minVis spaceFor items = (items, []) := by
  have hmin : min items.length (max minVis spaceFor) = items.length :=
    Nat.min_eq_left (le_trans h (Nat.le_max_left _ _))
  cases cf <;>
    simp [overflowPartition, hmin, Nat.sub_self, List.take_length, List.drop_length]

theorem mapWithIndex_append (f : Nat → α → β) (n : Nat) (l1 l2 : List α) :
    mapWithIndex f n (l1 ++ l2) = mapWithIndex f n l1 ++ mapWithIndex f (n + l1.length) l2 := by
  induction l1 generalizing n with
  | nil => simp [mapWithIndex]
  | cons a as ih =>
      have harith : n + 1 + as.length = n + (as.length + 1) := by omega
      simp [mapWithIndex, ih (n + 1), harith]

theorem map_child_mapWithIndex (cfg : RendererConfig) (items : List BreadcrumbProps)
    (n : Nat) (vs : List BreadcrumbProps) :
    (mapWithIndex (fun i p => renderBreadcrumbWrapper cfg items p i) n vs).map LiElem.child
      = vs.map (fun p => renderBreadcrumb cfg p (isCurrentFlag items p)) := by
  induction vs generalizing n with
  | nil => rfl
  | cons a as ih =>
      simp only [mapWithIndex, List.map_cons, ih]
      rfl

theorem isCurrentFlag_self (items : List BreadcrumbProps) (x : BreadcrumbProps)
    (h : items.getLast? = some x) : isCurrentFlag items x = true := by
  simp [isCurrentFlag, h]

theorem isCurrentFlag_of_ne (items : List BreadcrumbProps) (x p : BreadcrumbProps)
    (h : items.getLast? = some x) (hne : p ≠ x) : isCurrentFlag items p = false := by
  simp [isCurrentFlag, h]
  exact fun hc => hne hc.symm

theorem map_flags_of_notMem (items : List BreadcrumbProps) (x : BreadcrumbProps)
    (h : items.getLast? = some x) (ys : List BreadcrumbProps) (hx : x ∉ ys) :
    ys.map (fun p => isCurrentFlag items p) = List.replicate ys.length false := by
  induction ys with
  | nil => rfl
  | cons a as ih =>
      simp only [List.mem_cons, not_or] at hx
      simp [List.replicate_succ, isCurrentFlag_of_ne items x a h (fun e => hx.1 e.symm),
        ih hx.2]

theorem map_render_of_notMem (cfg : RendererConfig) (items : List BreadcrumbProps)
    (x : BreadcrumbProps) (h : items.getLast? = some x) (ys : List BreadcrumbProps)
    (hx : x ∉ ys) :
    ys.map (fun p => renderBreadcrumb cfg p (isCurrentFlag items p))
      = ys.map (fun p => renderBreadcrumb cfg p false) := by
  induction ys with
  | nil => rfl
  | cons a as ih =>
      simp only [List.mem_cons, not_or] at hx
      simp [isCurrentFlag_of_ne items x a h (fun e => hx.1 e.symm), ih hx.2]

theorem callsOf_append (rs1 rs2 : List RenderedBreadcrumb) :
    callsOf (rs1 ++ rs2) = callsOf rs1 ++ callsOf rs2 := by
  induction rs1 with
  | nil => rfl
  | cons r rs ih => simp [callsOf, ih]

theorem mem_callsOf (c : RendererCall) (rs : List RenderedBreadcrumb)
    (h : c ∈ callsOf rs) : ∃ r ∈ rs, c ∈ r.calls := by
  induction rs with
  | nil => simp [callsOf] at h
  | cons r rest ih =>
      simp only [callsOf, List.mem_append] at h
      rcases h with h | h
      · exact ⟨r, List.mem_cons_self r rest, h⟩
      · rcases ih h with ⟨s, hs, hc⟩
        exact ⟨s, List.mem_cons_of_mem r hs, hc⟩

theorem currentR_arg (cfg : RendererConfig) (p q : BreadcrumbProps) (f : Bool)
    (h : RendererCall.currentR q ∈ (renderBreadcrumb cfg p f).calls) : q = p := by
  unfold renderBreadcrumb at h
  by_cases h1 : (f && cfg.currentBreadcrumbRenderer) = true
  · simp [h1, RenderedBreadcrumb.calls] at h
    exact h
  · by_cases h2 : cfg.breadcrumbRenderer = true
    · simp [h1, h2, RenderedBreadcrumb.calls] at h
    · simp [h1, h2, RenderedBreadcrumb.calls] at h

/-! Concrete descriptors used by examples, witnesses and counterexamples. -/

def i1 : BreadcrumbProps := { text := "1" }

def i2 : BreadcrumbProps := { text := "2" }

def i3 : BreadcrumbProps := { text := "3" }

theorem breadcrumbs2Render_fst (cfg : RendererConfig) (cf : Boundary)
    (minVis spaceFor : Nat) (pp : PopoverPassProps) (items : List BreadcrumbProps) :
    (breadcrumbs2Render cfg cf minVis spaceFor pp items).1
      = renderVisibleLis cfg items (overflowPartition cf minVis spaceFor items).1 := rfl

theorem breadcrumbs2Render_overflow (cfg : RendererConfig) (cf : Boundary)
    (minVis spaceFor : Nat) (pp : PopoverPassProps) (items : List BreadcrumbProps) :
    (breadcrumbs2Render cfg cf minVis spaceFor pp items).2.1
      = renderOverflow cf pp (overflowPartition cf minVis spaceFor items).2 := rfl

theorem breadcrumbs2Render_calls (cfg : RendererConfig) (cf : Boundary)
    (minVis spaceFor : Nat) (pp : PopoverPassProps) (items : List BreadcrumbProps) :
    (breadcrumbs2Render cfg cf minVis spaceFor pp items).2.2
      = callsOf ((renderVisibleLis cfg items
          (overflowPartition cf minVis spaceFor items).1).map LiElem.child) := rfl

theorem breadcrumbs2Render_fst_of_all_visible (cfg : RendererConfig) (cf : Boundary)
    (minVis spaceFor : Nat) (pp : PopoverPassProps) (items : List BreadcrumbProps)
    (h : items.length ≤ minVis) :
    (breadcrumbs2Render cfg cf minVis spaceFor pp items).1
      = renderVisibleLis cfg items items := by
  rw [breadcrumbs2Render_fst, overflowPartition_all_visible cf minVis spaceFor items h]

theorem renderBreadcrumb_noCurrentRenderer (p : BreadcrumbProps) (f : Bool) :
    renderBreadcrumb ⟨true, false⟩ p f = RenderedBreadcrumb.fromGenericRenderer p := by
  cases f <;> rfl

/-- Claim C1, counterexample: the claim states that the current prop of the
rendered default breadcrumb always equals the computed isCurrent flag,
superseding any current field on the descriptor.  For the one-element
sequence whose descriptor carries `current := false`, the computed flag is
true, yet the rendered default breadcrumb carries `current = false`: the
descriptor field, written after the computed flag in the JSX, wins. -/
theorem c1_counterexample :
    isCurrentFlag [{ text := "home", current := some false }]
        { text := "home", current := some false } = true ∧
    (renderBreadcrumbWrapper ⟨false, false⟩ [{ text := "home", current := some false }]
        { text := "home", current := some false } 0).child.currentProp = some false := by
  constructor
  · rfl
  · rfl

/-- Claim C1 (amended): when neither renderer is supplied, the default
breadcrumb element receives the computed isCurrent flag as a default only:
its current prop is the current field of the descriptor when that field is
present, and the computed flag otherwise, because the descriptor spread is
written after the computed flag. -/
theorem c1_theorem (items : List BreadcrumbProps) (p : BreadcrumbProps) (i : Nat) :
    (renderBreadcrumbWrapper ⟨false, false⟩ items p i).child.currentProp
      = some (p.current.getD (isCurrentFlag items p)) := by
  cases hc : p.current <;>
    simp [renderBreadcrumbWrapper, renderBreadcrumb, RenderedBreadcrumb.currentProp, hc]

/-- Claim C2: the overflow menu is built from the reversal of the overflowed
subsequence when collapsing from the start, and in the given order when
collapsing from the end; in particular, for the items 1, 2, 3 with space for
one visible item, the menu labels read 2, 1 under start collapse and 2, 3
under end collapse. -/
theorem c2_theorem :
    (∀ (pp : PopoverPassProps) (its : List BreadcrumbProps),
        (renderOverflow Boundary.START pp its).content
          = mapWithIndex (fun i p => renderOverflowBreadcrumb p i) 0 its.reverse) ∧
    (∀ (pp : PopoverPassProps) (its : List BreadcrumbProps),
        (renderOverflow Boundary.END pp its).content
          = mapWithIndex (fun i p => renderOverflowBreadcrumb p i) 0 its) ∧
    (overflowPartition Boundary.START 0 1 [i1, i2, i3] = ([i3], [i1, i2]) ∧
      ((renderOverflow Boundary.START {}
          (overflowPartition Boundary.START 0 1 [i1, i2, i3]).2).content).map
        MenuItem2Elem.text = ["2", "1"]) ∧
    (overflowPartition Boundary.END 0 1 [i1, i2, i3] = ([i1], [i2, i3]) ∧
      ((renderOverflow Boundary.END {}
          (overflowPartition Boundary.END 0 1 [i1, i2, i3]).2).content).map
        MenuItem2Elem.text = ["2", "3"]) := by
  refine ⟨fun pp its => rfl, fun pp its => rfl, ⟨?_, ?_⟩, ⟨?_, ?_⟩⟩ <;> decide

/-- Claim C5: every overflow-menu entry passes the arbitrary pass-through
display attributes of its descriptor (those that survive the html filter,
including the link target, the click handler and the class) to the menu-item
element, and the label is passed explicitly as its text. -/
theorem c5_theorem (p : BreadcrumbProps) (i : Nat) :
    (renderOverflowBreadcrumb p i).extraAttrs = p.extraAttrs ∧
    (renderOverflowBreadcrumb p i).href = p.href ∧
    (renderOverflowBreadcrumb p i).onClick = p.onClick ∧
    (renderOverflowBreadcrumb p i).className = p.className ∧
    (renderOverflowBreadcrumb p i).text = p.text :=
  ⟨rfl, rfl, rfl, rfl, rfl⟩

/-- Claim C6, counterexample: the claim states that every overflow entry
lacking both a link target and a click handler renders disabled.  A
descriptor with neither, but carrying the display attribute
`disabled := false`, renders an entry that is not disabled: the descriptor
attribute, spread after the computed disabled flag, wins. -/
theorem c6_counterexample :
    ({ text := "plain", disabled := some false } : BreadcrumbProps).href = none ∧
    ({ text := "plain", disabled := some false } : BreadcrumbProps).onClick = none ∧
    (renderOverflowBreadcrumb { text := "plain", disabled := some false } 0).disabled
      = false := by
  refine ⟨rfl, rfl, rfl⟩

/-- Claim C6 (amended): an overflow-menu entry whose descriptor carries no
disabled display attribute is interactive exactly when the descriptor has a
link target or a click handler; a disabled attribute on the descriptor
supersedes that computed value, since the html-prop spread is written after
it. -/
theorem c6_theorem (p : BreadcrumbProps) (i : Nat) :
    (p.disabled = none →
      (((renderOverflowBreadcrumb p i).disabled = false)
        ↔ (p.href.isSome || p.onClick.isSome) = true)) ∧
    (∀ b, p.disabled = some b → (renderOverflowBreadcrumb p i).disabled = b) := by
  constructor
  · intro h
    cases hh : p.href <;> cases ho : p.onClick <;>
      simp [renderOverflowBreadcrumb, removeNonHTMLProps, h, hh, ho]
  · intro b h
    simp [renderOverflowBreadcrumb, removeNonHTMLProps, h]

/-- Claim C6, witness: a linked descriptor with no disabled attribute. -/
theorem c6_witness :
    (((renderOverflowBreadcrumb { text := "h", href := some "/a" } 0).disabled = false)
      ↔ ((({ text := "h", href := some "/a" } : BreadcrumbProps).href.isSome
          || (({ text := "h", href := some "/a" } : BreadcrumbProps).onClick.isSome)) = true)) :=
  (c6_theorem { text := "h", href := some "/a" } 0).1 rfl

/-- Claim C10: the popover wrapping the overflow menu is disabled exactly when
the overflowed subsequence is empty; reversal under start collapse does not
change the length, and the declared type of the popover pass-through props
omits the disabled field, so it cannot be overridden. -/
theorem c10_theorem (cf : Boundary) (pp : PopoverPassProps) (its : List BreadcrumbProps) :
    (renderOverflow cf pp its).disabled = true ↔ its = [] := by
  cases cf <;> simp [renderOverflow, List.length_eq_zero]

/-- Claim C3, counterexample: the claim states that for every non-empty items
sequence rendering entirely through the visible path exactly one breadcrumb
is marked current.  When the same descriptor object occurs twice, the
reference-equality check of the wrapper marks both occurrences current: with
no renderers supplied, both rendered default breadcrumbs carry
`current = true`. -/
theorem c3_counterexample :
    ((breadcrumbs2Render ⟨false, false⟩ Boundary.START 2 0 {}
        [{ text := "r" }, { text := "r" }]).1.map (fun li => li.child.currentProp))
      = [some true, some true] := by
  decide

/-- Claim C3 (amended): for every non-empty items sequence rendered entirely
through the visible path whose last descriptor is not reference-duplicated
earlier in the sequence, the computed current flag is false for every
breadcrumb except the one produced from the last descriptor, whose flag is
true; with duplicated references to the last descriptor, every occurrence is
marked current. -/
theorem c3_theorem (ys : List BreadcrumbProps) (x : BreadcrumbProps) (hx : x ∉ ys)
    (cf : Boundary) (minVis spaceFor : Nat) (hmin : (ys ++ [x]).length ≤ minVis) :
    (overflowPartition cf minVis spaceFor (ys ++ [x])).1 = ys ++ [x] ∧
    (overflowPartition cf minVis spaceFor (ys ++ [x])).2 = [] ∧
    ((ys ++ [x]).map (fun p => isCurrentFlag (ys ++ [x]) p))
      = List.replicate ys.length false ++ [true] := by
  have hpart := overflowPartition_all_visible cf minVis spaceFor (ys ++ [x]) hmin
  have hlast : (ys ++ [x]).getLast? = some x := List.getLast?_concat ys
  refine ⟨by rw [hpart], by rw [hpart], ?_⟩
  rw [List.map_append, map_flags_of_notMem (ys ++ [x]) x hlast ys hx]
  simp [isCurrentFlag_self (ys ++ [x]) x hlast]

/-- Claim C3, witness: two distinct descriptors, all visible. -/
theorem c3_witness :
    (overflowPartition Boundary.START 2 0 ([i1] ++ [i3])).1 = [i1] ++ [i3] ∧
    (overflowPartition Boundary.START 2 0 ([i1] ++ [i3])).2 = [] ∧
    (([i1] ++ [i3]).map (fun p => isCurrentFlag ([i1] ++ [i3]) p))
      = List.replicate [i1].length false ++ [true] :=
  c3_theorem [i1] i3 (by decide) Boundary.START 2 0 (by decide)

/-- Claim C4, counterexample: the claim states that with both renderers
supplied and everything visible, the current-specific renderer is invoked
exactly once.  When the same descriptor object occurs twice, both
occurrences pass the reference-equality current check and the
current-specific renderer is invoked twice. -/
theorem c4_counterexample :
    ((breadcrumbs2Render ⟨true, true⟩ Boundary.START 2 0 {}
        [{ text := "s" }, { text := "s" }]).1.map LiElem.child).countP
      RenderedBreadcrumb.isFromCurrent = 2 := by
  decide

/-- Claim C4 (amended): with both renderers supplied, everything visible, and
the last descriptor not reference-duplicated earlier in the sequence, the
current-specific renderer is invoked exactly once and only with the final
descriptor, and the generic renderer is invoked exactly once per remaining
descriptor and never with the final one; with duplicated references to the
final descriptor the current-specific renderer fires once per occurrence. -/
theorem c4_theorem (ys : List BreadcrumbProps) (x : BreadcrumbProps) (hx : x ∉ ys)
    (cf : Boundary) (minVis spaceFor : Nat) (pp : PopoverPassProps)
    (hmin : (ys ++ [x]).length ≤ minVis) :
    ((breadcrumbs2Render ⟨true, true⟩ cf minVis spaceFor pp (ys ++ [x])).1.map LiElem.child)
        = ys.map RenderedBreadcrumb.fromGenericRenderer
          ++ [RenderedBreadcrumb.fromCurrentRenderer x] ∧
    ((breadcrumbs2Render ⟨true, true⟩ cf minVis spaceFor pp (ys ++ [x])).1.map
        LiElem.child).countP RenderedBreadcrumb.isFromCurrent = 1 ∧
    ((breadcrumbs2Render ⟨true, true⟩ cf minVis spaceFor pp (ys ++ [x])).1.map
        LiElem.child).countP RenderedBreadcrumb.isFromGeneric = (ys ++ [x]).length - 1 ∧
    RenderedBreadcrumb.fromGenericRenderer x
      ∉ ((breadcrumbs2Render ⟨true, true⟩ cf minVis spaceFor pp (ys ++ [x])).1.map
          LiElem.child) := by
  have hlast : (ys ++ [x]).getLast? = some x := List.getLast?_concat ys
  have hchild :
      ((breadcrumbs2Render ⟨true, true⟩ cf minVis spaceFor pp (ys ++ [x])).1.map LiElem.child)
        = ys.map RenderedBreadcrumb.fromGenericRenderer
          ++ [RenderedBreadcrumb.fromCurrentRenderer x] := by
    rw [breadcrumbs2Render_fst_of_all_visible ⟨true, true⟩ cf minVis spaceFor pp
        (ys ++ [x]) hmin]
    simp only [renderVisibleLis]
    rw [map_child_mapWithIndex, List.map_append,
      map_render_of_notMem ⟨true, true⟩ (ys ++ [x]) x hlast ys hx]
    simp only [List.map_singleton, isCurrentFlag_self (ys ++ [x]) x hlast]
    rfl
  refine ⟨hchild, ?_, ?_, ?_⟩
  · rw [hchild]
    simp [List.countP_append, List.countP_map, Function.comp,
      RenderedBreadcrumb.isFromCurrent]
  · rw [hchild]
    simp [List.countP_append, List.countP_map, Function.comp,
      RenderedBreadcrumb.isFromGeneric]
  · rw [hchild]
    simp only [List.mem_append, List.mem_map, List.mem_singleton, not_or]
    constructor
    · rintro ⟨a, ha, hEq⟩
      cases hEq
      exact hx ha
    · intro hEq
      cases hEq

/-- Claim C4, witness: three distinct descriptors, all visible, both
renderers supplied. -/
theorem c4_witness :
    (((breadcrumbs2Render ⟨true, true⟩ Boundary.START 3 0 {} ([i1, i2] ++ [i3])).1.map
        LiElem.child)
      = [i1, i2].map RenderedBreadcrumb.fromGenericRenderer
        ++ [RenderedBreadcrumb.fromCurrentRenderer i3]) ∧
    ((breadcrumbs2Render ⟨true, true⟩ Boundary.START 3 0 {} ([i1, i2] ++ [i3])).1.map
        LiElem.child).countP RenderedBreadcrumb.isFromCurrent = 1 ∧
    ((breadcrumbs2Render ⟨true, true⟩ Boundary.START 3 0 {} ([i1, i2] ++ [i3])).1.map
        LiElem.child).countP RenderedBreadcrumb.isFromGeneric = ([i1, i2] ++ [i3]).length - 1 ∧
    RenderedBreadcrumb.fromGenericRenderer i3
      ∉ ((breadcrumbs2Render ⟨true, true⟩ Boundary.START 3 0 {} ([i1, i2] ++ [i3])).1.map
          LiElem.child) :=
  c4_theorem [i1, i2] i3 (by decide) Boundary.START 3 0 {} (by decide)

/-- Claim C7, counterexample: the claim states that with only the generic
renderer supplied and everything visible, it is invoked exactly once with
the final descriptor.  When the same descriptor object occurs twice, it is
invoked twice with that descriptor. -/
theorem c7_counterexample :
    ((breadcrumbs2Render ⟨true, false⟩ Boundary.END 2 0 {}
        [{ text := "t" }, { text := "t" }]).1.map LiElem.child).count
      (RenderedBreadcrumb.fromGenericRenderer { text := "t" }) = 2 := by
  decide

/-- Claim C7 (amended): with only the generic renderer supplied and
everything visible, it is invoked exactly once per item, hence items.length
times in total, and it is invoked with the final descriptor exactly once per
occurrence of that descriptor, hence exactly once when the final descriptor
is not reference-duplicated in the sequence. -/
theorem c7_theorem (ys : List BreadcrumbProps) (x : BreadcrumbProps) (hx : x ∉ ys)
    (cf : Boundary) (minVis spaceFor : Nat) (pp : PopoverPassProps)
    (hmin : (ys ++ [x]).length ≤ minVis) :
    ((breadcrumbs2Render ⟨true, false⟩ cf minVis spaceFor pp (ys ++ [x])).1.map LiElem.child)
        = (ys ++ [x]).map RenderedBreadcrumb.fromGenericRenderer ∧
    ((breadcrumbs2Render ⟨true, false⟩ cf minVis spaceFor pp (ys ++ [x])).1.map
        LiElem.child).countP RenderedBreadcrumb.isFromGeneric = (ys ++ [x]).length ∧
    ((breadcrumbs2Render ⟨true, false⟩ cf minVis spaceFor pp (ys ++ [x])).1.map
        LiElem.child).count (RenderedBreadcrumb.fromGenericRenderer x) = 1 := by
  have hchild :
      ((breadcrumbs2Render ⟨true, false⟩ cf minVis spaceFor pp (ys ++ [x])).1.map LiElem.child)
        = (ys ++ [x]).map RenderedBreadcrumb.fromGenericRenderer := by
    rw [breadcrumbs2Render_fst_of_all_visible ⟨true, false⟩ cf minVis spaceFor pp
        (ys ++ [x]) hmin]
    simp only [renderVisibleLis]
    rw [map_child_mapWithIndex]
    simp only [renderBreadcrumb_noCurrentRenderer]
  refine ⟨hchild, ?_, ?_⟩
  · rw [hchild]
    simp [List.countP_map, Function.comp, RenderedBreadcrumb.isFromGeneric]
  · rw [hchild, List.map_append]
    have hzero : (ys.map RenderedBreadcrumb.fromGenericRenderer).count
        (RenderedBreadcrumb.fromGenericRenderer x) = 0 := by
      rw [List.count_eq_zero]
      simp only [List.mem_map, not_exists, not_and]
      intro a ha hEq
      cases hEq
      exact hx ha
    simp [List.count_append, hzero]

/-- Claim C7, witness: three distinct descriptors, all visible, only the
generic renderer supplied. -/
theorem c7_witness :
    (((breadcrumbs2Render ⟨true, false⟩ Boundary.END 3 0 {} ([i2, i3] ++ [i1])).1.map
        LiElem.child)
      = ([i2, i3] ++ [i1]).map RenderedBreadcrumb.fromGenericRenderer) ∧
    ((breadcrumbs2Render ⟨true, false⟩ Boundary.END 3 0 {} ([i2, i3] ++ [i1])).1.map
        LiElem.child).countP RenderedBreadcrumb.isFromGeneric = ([i2, i3] ++ [i1]).length ∧
    ((breadcrumbs2Render ⟨true, false⟩ Boundary.END 3 0 {} ([i2, i3] ++ [i1])).1.map
        LiElem.child).count (RenderedBreadcrumb.fromGenericRenderer i1) = 1 :=
  c7_theorem [i2, i3] i1 (by decide) Boundary.END 3 0 {} (by decide)

/-- Claim C8: every overflowed descriptor is rendered by
renderOverflowBreadcrumb, even when it is the last element of the full items
sequence: here, collapsing from the end with space for fewer items than the
sequence holds, the final descriptor lands at the end of the overflow menu
as a plain menu-item entry (a type carrying no current flag at all), the
current-specific renderer is never invoked with it, and the overflow element
is independent of which renderer callbacks were supplied. -/
theorem c8_theorem (cfg cfg2 : RendererConfig) (pp : PopoverPassProps)
    (ys : List BreadcrumbProps) (x : BreadcrumbProps) (hx : x ∉ ys)
    (spaceFor : Nat) (hs : spaceFor ≤ ys.length) :
    (overflowPartition Boundary.END 0 spaceFor (ys ++ [x])).2 = ys.drop spaceFor ++ [x] ∧
    (breadcrumbs2Render cfg Boundary.END 0 spaceFor pp (ys ++ [x])).2.1.content.getLast?
      = some (renderOverflowBreadcrumb x (ys.length - spaceFor)) ∧
    RendererCall.currentR x
      ∉ (breadcrumbs2Render cfg Boundary.END 0 spaceFor pp (ys ++ [x])).2.2 ∧
    (breadcrumbs2Render cfg2 Boundary.END 0 spaceFor pp (ys ++ [x])).2.1
      = (breadcrumbs2Render cfg Boundary.END 0 spaceFor pp (ys ++ [x])).2.1 := by
  have hnum : min (ys ++ [x]).length (max 0 spaceFor) = spaceFor := by
    simp only [List.length_append, List.length_singleton]
    omega
  have hpair : overflowPartition Boundary.END 0 spaceFor (ys ++ [x])
      = ((ys ++ [x]).take (min (ys ++ [x]).length (max 0 spaceFor)),
         (ys ++ [x]).drop (min (ys ++ [x]).length (max 0 spaceFor))) := rfl
  have hover : (overflowPartition Boundary.END 0 spaceFor (ys ++ [x])).2
      = ys.drop spaceFor ++ [x] := by
    rw [hpair, hnum]
    exact List.drop_append_of_le_length hs
  have hvis : (overflowPartition Boundary.END 0 spaceFor (ys ++ [x])).1
      = ys.take spaceFor := by
    rw [hpair, hnum]
    exact List.take_append_of_le_length hs
  have hcontent : (breadcrumbs2Render cfg Boundary.END 0 spaceFor pp (ys ++ [x])).2.1.content
      = mapWithIndex (fun i p => renderOverflowBreadcrumb p i) 0 (ys.drop spaceFor)
        ++ [renderOverflowBreadcrumb x (0 + (ys.drop spaceFor).length)] := by
    rw [breadcrumbs2Render_overflow, hover]
    show mapWithIndex (fun i p => renderOverflowBreadcrumb p i) 0
        (ys.drop spaceFor ++ [x]) = _
    rw [mapWithIndex_append]
    rfl
  refine ⟨hover, ?_, ?_, ?_⟩
  · rw [hcontent, List.getLast?_concat]
    simp [List.length_drop]
  · intro hmem
    rw [breadcrumbs2Render_calls, hvis] at hmem
    obtain ⟨r, hr, hc⟩ := mem_callsOf _ _ hmem
    rw [show renderVisibleLis cfg (ys ++ [x]) (ys.take spaceFor)
          = mapWithIndex (fun i p => renderBreadcrumbWrapper cfg (ys ++ [x]) p i) 0
              (ys.take spaceFor) from rfl,
      map_child_mapWithIndex] at hr
    obtain ⟨p, hp, hrp⟩ := List.mem_map.mp hr
    rw [← hrp] at hc
    have hxp : x = p := currentR_arg cfg p x _ hc
    exact hx (hxp ▸ List.take_subset spaceFor ys hp)
  · rw [breadcrumbs2Render_overflow, breadcrumbs2Render_overflow]

/-- Claim C8, witness: three distinct descriptors, space for one, collapsing
from the end, with the current-specific renderer supplied. -/
theorem c8_witness :
    (overflowPartition Boundary.END 0 1 ([i1, i2] ++ [i3])).2 = [i1, i2].drop 1 ++ [i3] ∧
    (breadcrumbs2Render ⟨true, true⟩ Boundary.END 0 1 {}
        ([i1, i2] ++ [i3])).2.1.content.getLast?
      = some (renderOverflowBreadcrumb i3 ([i1, i2].length - 1)) ∧
    RendererCall.currentR i3
      ∉ (breadcrumbs2Render ⟨true, true⟩ Boundary.END 0 1 {} ([i1, i2] ++ [i3])).2.2 ∧
    (breadcrumbs2Render ⟨false, false⟩ Boundary.END 0 1 {} ([i1, i2] ++ [i3])).2.1
      = (breadcrumbs2Render ⟨true, true⟩ Boundary.END 0 1 {} ([i1, i2] ++ [i3])).2.1 :=
  c8_theorem ⟨true, true⟩ ⟨false, false⟩ {} [i1, i2] i3 (by decide) 1 (by decide)

/-- Claim C9: whatever the overflow-list pass-through record holds, the
attributes handed to the collaborator carry the callers items sequence and
the two internal render callbacks, because they are written after the
spread, while the forwardable fields take the pass-through value whenever it
is present (class names are merged, with the pass-through class included
between the base class and the component class). -/
theorem c9_theorem (cf : Boundary) (minVis : Option Nat) (cls : Option String)
    (items : List BreadcrumbProps) (olp : OverflowListAttrs) :
    (overflowListAttrsOf cf minVis cls items olp).items = some items ∧
    (overflowListAttrsOf cf minVis cls items olp).overflowRenderer
      = some OverflowRendererTag.controllerOverflow ∧
    (overflowListAttrsOf cf minVis cls items olp).visibleItemRenderer
      = some VisibleRendererTag.controllerVisible ∧
    (overflowListAttrsOf cf minVis cls items olp).collapseFrom
      = pick olp.collapseFrom (some cf) ∧
    (overflowListAttrsOf cf minVis cls items olp).minVisibleItems
      = pick olp.minVisibleItems minVis ∧
    (overflowListAttrsOf cf minVis cls items olp).tagName = pick olp.tagName (some "ul") ∧
    (overflowListAttrsOf cf minVis cls items olp).alwaysRenderOverflow
      = olp.alwaysRenderOverflow ∧
    (overflowListAttrsOf cf minVis cls items olp).style = olp.style ∧
    (overflowListAttrsOf cf minVis cls items olp).className
      = some (classNames [some breadcrumbsClass, olp.className, cls]) := by
  refine ⟨rfl, rfl, rfl, rfl, rfl, rfl, ?_, ?_, rfl⟩
  · show pick olp.alwaysRenderOverflow none = olp.alwaysRenderOverflow
    cases olp.alwaysRenderOverflow <;> rfl
  · show pick olp.style none = olp.style
    cases olp.style <;> rfl

end Breadcrumbs2
